import Mathlib

set_option autoImplicit false
set_option maxRecDepth 8000

/-!
Shallow embedding of the jargen repository's core: the generic
configuration validator (`src/config_validation.py`) and the
route/policy compilers (`jargen/generate_config.py`), together with
proofs about the spec's claims.

Python values are modelled by `PyVal`; raised Python exceptions by
`Except PyErr`. Recursive traversals carry an explicit fuel argument
bounded by `pySize` of the traversed value, so that every definition
is structurally recursive and reduces inside the kernel; the fuel is
always sufficient because each recursive call strictly decreases the
value's size while consuming one unit of fuel.
-/

/-- A Python value as produced by parsing YAML: strings, ints, bools,
lists and (insertion-ordered, string-keyed) dicts. -/
inductive PyVal where
  | pstr (s : String)
  | pint (n : Int)
  | pbool (b : Bool)
  | plist (elems : List PyVal)
  | pdict (entries : List (String × PyVal))

mutual

def pySize : PyVal → Nat
  | .pstr _ => 1
  | .pint _ => 1
  | .pbool _ => 1
  | .plist es => 1 + pySizeList es
  | .pdict es => 1 + pySizeEntries es

def pySizeList : List PyVal → Nat
  | [] => 0
  | v :: rest => 1 + pySize v + pySizeList rest

def pySizeEntries : List (String × PyVal) → Nat
  | [] => 0
  | (_, v) :: rest => 1 + pySize v + pySizeEntries rest

end

/-- A Python exception as raised by the validator's operations. -/
inductive PyErr where
  | keyError (key : String)
  | typeError
  | attributeError
  | indexError
deriving DecidableEq

/-- The runtime type of a Python value, as returned by `type(...)`. -/
inductive PyType where
  | tstr
  | tint
  | tbool
  | tlist
  | tdict
deriving DecidableEq, BEq

def pyTypeOf : PyVal → PyType
  | .pstr _ => .tstr
  | .pint _ => .tint
  | .pbool _ => .tbool
  | .plist _ => .tlist
  | .pdict _ => .tdict

def pyTypeName : PyType → String
  | .tstr => "str"
  | .tint => "int"
  | .tbool => "bool"
  | .tlist => "list"
  | .tdict => "dict"

/-- Python `isinstance(v, t)` for a concrete type `t`; `bool` is a
subclass of `int`, every other pair of distinct types is unrelated. -/
def isinstance (v : PyVal) (t : PyType) : Bool :=
  pyTypeOf v == t || (pyTypeOf v == PyType.tbool && t == PyType.tint)

/-- Python `str(v)` for scalar values (`str(True) = "True"`); the
validator only stringifies values whose type template is a scalar. -/
def pyStr : PyVal → String
  | .pstr s => s
  | .pint n => toString n
  | .pbool true => "True"
  | .pbool false => "False"
  | .plist _ => "list"
  | .pdict _ => "dict"

/-- A value is hashable (usable as a set element) iff it is a scalar. -/
def pyHashable : PyVal → Bool
  | .pstr _ => true
  | .pint _ => true
  | .pbool _ => true
  | .plist _ => false
  | .pdict _ => false

def pyEqListF (recur : PyVal → PyVal → Bool) : List PyVal → List PyVal → Bool
  | [], [] => true
  | a :: as, b :: bs => recur a b && pyEqListF recur as bs
  | _, _ => false

def pyLookupEqF (recur : PyVal → PyVal → Bool) (k : String) (v : PyVal) :
    List (String × PyVal) → Bool
  | [] => false
  | (k2, v2) :: rest => if k == k2 then recur v v2 else pyLookupEqF recur k v rest

def pyEqEntriesF (recur : PyVal → PyVal → Bool) :
    List (String × PyVal) → List (String × PyVal) → Bool
  | [], _ => true
  | (k, v) :: rest, bs => pyLookupEqF recur k v bs && pyEqEntriesF recur rest bs

/-- Python `==` on values, with fuel: `1 == True`, lists compare
elementwise, dicts compare as unordered key/value maps (equal length
and every entry of the first is an entry of the second). -/
def pyEqF : Nat → PyVal → PyVal → Bool
  | 0, _, _ => false
  | fuel + 1, a, b =>
    match a, b with
    | .pstr x, .pstr y => x == y
    | .pint x, .pint y => x == y
    | .pbool x, .pbool y => x == y
    | .pint x, .pbool y => x == (if y then 1 else 0)
    | .pbool x, .pint y => (if x then (1 : Int) else 0) == y
    | .plist xs, .plist ys => pyEqListF (pyEqF fuel) xs ys
    | .pdict xs, .pdict ys =>
      (xs.length == ys.length) && pyEqEntriesF (pyEqF fuel) xs ys
    | _, _ => false

/-- Python `==` on values; the fuel `sizeOf a` always suffices because
each nesting level strictly decreases the first argument's size. -/
def pyEq (a b : PyVal) : Bool :=
  pyEqF (pySize a) a b

/-- Whether the first character list is a leading block of the second. -/
def charsLeading : List Char → List Char → Bool
  | [], _ => true
  | _ :: _, [] => false
  | c :: cs, d :: ds => c == d && charsLeading cs ds

/-- Whether `needle` occurs contiguously inside `hay` (Python's
substring containment `needle in hay`). -/
def charsContains (needle : List Char) : List Char → Bool
  | [] => needle.isEmpty
  | c :: rest => charsLeading needle (c :: rest) || charsContains needle rest

/-- Python `x in container`: key membership for dicts (unhashable `x`
raises `TypeError`), `==`-membership for lists, substring test for
strings, `TypeError` for non-containers. -/
def pyContains (container x : PyVal) : Except PyErr Bool :=
  match container with
  | .pdict es =>
    match x with
    | .pstr s => .ok (es.any (fun e => e.1 == s))
    | .pint _ => .ok false
    | .pbool _ => .ok false
    | _ => .error .typeError
  | .plist es => .ok (es.any (fun e => pyEq x e))
  | .pstr s =>
    match x with
    | .pstr t => .ok (charsContains t.data s.data)
    | _ => .error .typeError
  | _ => .error .typeError

/-- Python iteration `for x in v`: a dict yields its keys, a string
yields its one-character substrings, a scalar raises `TypeError`. -/
def pyIter : PyVal → Except PyErr (List PyVal)
  | .plist es => .ok es
  | .pdict es => .ok (es.map (fun e => PyVal.pstr e.1))
  | .pstr s => .ok (s.data.map (fun c => PyVal.pstr (String.mk [c])))
  | _ => .error .typeError

def lookupEntry (k : String) : List (String × PyVal) → Option PyVal
  | [] => none
  | (k2, v) :: rest => if k2 == k then some v else lookupEntry k rest

/-- Python subscription `container[idx]`: dict lookup (`KeyError` when
absent), list indexing with negative-index wrapping (`IndexError` out
of range), `TypeError` otherwise. -/
def pySubscript (container idx : PyVal) : Except PyErr PyVal :=
  match container with
  | .pdict es =>
    match idx with
    | .pstr k =>
      match lookupEntry k es with
      | some v => .ok v
      | none => .error (.keyError k)
    | .pint n => .error (.keyError (toString n))
    | .pbool b => .error (.keyError (pyStr (PyVal.pbool b)))
    | _ => .error .typeError
  | .plist es =>
    match idx with
    | .pint n =>
      let i : Int := if n < 0 then n + es.length else n
      if h : 0 ≤ i ∧ i.toNat < es.length then .ok (es.get ⟨i.toNat, h.2⟩)
      else .error .indexError
    | .pbool b =>
      let n : Int := if b then 1 else 0
      if h : n.toNat < es.length then .ok (es.get ⟨n.toNat, h⟩)
      else .error .indexError
    | _ => .error .typeError
  | _ => .error .typeError

/-- Evaluates `[x in container for x in xs]` and conjoins the results,
propagating the first raised exception, as Python's `all([...])`. -/
def allIn (container : PyVal) : List PyVal → Except PyErr Bool
  | [] => .ok true
  | x :: xs =>
    match pyContains container x with
    | .error e => .error e
    | .ok b =>
      match allIn container xs with
      | .error e => .error e
      | .ok b2 => .ok (b && b2)

/-- The nested `basic_validation_dict` of `basic_validation_caller`:
fails when a config key is missing from the schema, then reads
`schema["required"]` (a `KeyError` when the schema lacks it) and fails
when a required key is missing from the config. -/
def basic_validation_dict (config_entries : List (String × PyVal))
    (schema : PyVal) : Except PyErr Bool :=
  match allIn schema (config_entries.map (fun e => PyVal.pstr e.1)) with
  | .error e => .error e
  | .ok false => .ok false
  | .ok true =>
    match pySubscript schema (PyVal.pstr ("required")) with
    | .error e => .error e
    | .ok req =>
      match pyIter req with
      | .error e => .error e
      | .ok items =>
        match allIn (PyVal.pdict config_entries) items with
        | .error e => .error e
        | .ok b => .ok b

/-- Number of equivalence-class representatives a Python `set` built
from `l` retains: each element counts unless an equal one follows. -/
def countDistinctBy {α : Type} (eq : α → α → Bool) : List α → Nat
  | [] => 0
  | x :: xs => (if xs.any (eq x) then 0 else 1) + countDistinctBy eq xs

/-- Equality of two `tuple(d.items())` values: same length, same keys
in the same order, values compared by Python `==`. -/
def itemsEq : List (String × PyVal) → List (String × PyVal) → Bool
  | [], [] => true
  | (k1, v1) :: r1, (k2, v2) :: r2 => k1 == k2 && pyEq v1 v2 && itemsEq r1 r2
  | _, _ => false

/-- Evaluates `{tuple(d.items()) for d in config}` elementwise: a
non-dict element raises `AttributeError` (no `.items()`), a dict with
an unhashable value raises `TypeError` when the tuple is hashed. -/
def dictItemsAll : List PyVal → Except PyErr (List (List (String × PyVal)))
  | [] => .ok []
  | .pdict entries :: rest =>
    if entries.all (fun e => pyHashable e.2) then
      match dictItemsAll rest with
      | .error e => .error e
      | .ok ts => .ok (entries :: ts)
    else .error .typeError
  | _ :: _ => .error .attributeError

/-- The nested `basic_validation_list` of `basic_validation_caller`:
`len(set(config)) != len(config)` when all elements are hashable;
on `TypeError` it falls back to comparing `tuple(d.items())` of each
element, so dict duplicates are detected by ordered item tuples. -/
def basic_validation_list (config_elems : List PyVal) : Except PyErr Bool :=
  if config_elems.all pyHashable then
    .ok (countDistinctBy pyEq config_elems == config_elems.length)
  else
    match dictItemsAll config_elems with
    | .error e => .error e
    | .ok tuples => .ok (countDistinctBy itemsEq tuples == config_elems.length)

/-- One child step of `basic_validation_caller`'s loop: the
`isinstance` gate, then either recursion (container type template) or
the leaf regex check against `dataSchema["regex"]`; `recur` is the
recursive call supplied by `bvcF`. `fm` models `re.fullmatch`
converted to a boolean: `fm pattern s` is true iff `s` fully matches
`pattern`. -/
def bvcChildF (fm : String → String → Bool)
    (recur : PyVal → PyVal → PyVal → Except PyErr Bool)
    (dataContent dataSchema dataType : PyVal) : Except PyErr Bool :=
  if !isinstance dataContent (pyTypeOf dataType) then .ok false
  else
    match dataType with
    | .pdict _ => recur dataContent dataSchema dataType
    | .plist _ => recur dataContent dataSchema dataType
    | _ =>
      match pySubscript dataSchema (PyVal.pstr ("regex")) with
      | .error e => .error e
      | .ok (.pstr pattern) => .ok (fm pattern (pyStr dataContent))
      | .ok _ => .error .typeError

/-- The loop of `basic_validation_caller` over a dict config: for each
entry, look up the schema and type subtrees under the same key and run
the child step, stopping at the first failure or exception. -/
def bvcDictLoopF (fm : String → String → Bool)
    (recur : PyVal → PyVal → PyVal → Except PyErr Bool) :
    List (String × PyVal) → PyVal → PyVal → Except PyErr Bool
  | [], _, _ => .ok true
  | (k, v) :: rest, schema, types =>
    match pySubscript schema (PyVal.pstr k) with
    | .error e => .error e
    | .ok dataSchema =>
      match pySubscript types (PyVal.pstr k) with
      | .error e => .error e
      | .ok dataType =>
        match bvcChildF fm recur v dataSchema dataType with
        | .error e => .error e
        | .ok false => .ok false
        | .ok true => bvcDictLoopF fm recur rest schema types

/-- The loop of `basic_validation_caller` over a list config: each
element is checked against `schema[0]` and `types[0]`. -/
def bvcListLoopF (fm : String → String → Bool)
    (recur : PyVal → PyVal → PyVal → Except PyErr Bool) :
    List PyVal → PyVal → PyVal → Except PyErr Bool
  | [], _, _ => .ok true
  | v :: rest, schema, types =>
    match pySubscript schema (PyVal.pint 0) with
    | .error e => .error e
    | .ok dataSchema =>
      match pySubscript types (PyVal.pint 0) with
      | .error e => .error e
      | .ok dataType =>
        match bvcChildF fm recur v dataSchema dataType with
        | .error e => .error e
        | .ok false => .ok false
        | .ok true => bvcListLoopF fm recur rest schema types

/-- Fueled body of `basic_validation_caller`: dispatch on the config's
runtime type (`subroutines[type(config)]` raises `KeyError` for a
scalar config), run the dict/list subroutine, then the child loop. -/
def bvcF (fm : String → String → Bool) :
    Nat → PyVal → PyVal → PyVal → Except PyErr Bool
  | 0, _, _, _ => .error .typeError
  | fuel + 1, config, schema, types =>
    match config with
    | .pdict centries =>
      match basic_validation_dict centries schema with
      | .error e => .error e
      | .ok false => .ok false
      | .ok true => bvcDictLoopF fm (bvcF fm fuel) centries schema types
    | .plist celems =>
      match basic_validation_list celems with
      | .error e => .error e
      | .ok false => .ok false
      | .ok true => bvcListLoopF fm (bvcF fm fuel) celems schema types
    | other => .error (.keyError (pyTypeName (pyTypeOf other)))

/-- The generic Type/Schema validator `basic_validation_caller`,
parameterised by the regex matcher `fm` (modelling `re.fullmatch`).
The fuel `sizeOf config` always suffices: every recursive call moves
to a child of the config value, whose size is smaller by at least 3,
while only one unit of fuel is consumed. -/
def basic_validation_caller (fm : String → String → Bool)
    (config schema types : PyVal) : Except PyErr Bool :=
  bvcF fm (pySize config) config schema types

/-- Models `re.fullmatch` restricted to patterns that contain no regex
metacharacters: such a pattern fully matches exactly itself. Used to
instantiate the matcher parameter at concrete inputs. -/
def litFullmatch (pattern s : String) : Bool :=
  pattern == s

/-- The `validate_base(key)` decorator: run the generic validator on
the subtrees under `key`; on success call the wrapped section
refinement — passing the config subtree for all three arguments, as
the source does — and return its result (a Python bool or `None`,
modelled by `Option Bool` with `none` for `None`). -/
def validate_base (fm : String → String → Bool) (key : String)
    (f : PyVal → PyVal → PyVal → Option Bool)
    (config schema types : PyVal) : Except PyErr (Option Bool) :=
  match pySubscript config (PyVal.pstr key) with
  | .error e => .error e
  | .ok c =>
    match pySubscript schema (PyVal.pstr key) with
    | .error e => .error e
    | .ok s =>
      match pySubscript types (PyVal.pstr key) with
      | .error e => .error e
      | .ok t =>
        match basic_validation_caller fm c s t with
        | .error e => .error e
        | .ok false => .ok (some false)
        | .ok true => .ok (f c c c)

/-- The body of every section refinement in the source is `pass`, so
the wrapped function returns Python `None`. -/
def stub_refinement (_config _schema _types : PyVal) : Option Bool :=
  none

/-- `validate_basic`, the only enabled section validator. -/
def validate_basic (fm : String → String → Bool)
    (config schema types : PyVal) : Except PyErr (Option Bool) :=
  validate_base fm ("basic") stub_refinement config schema types

/-- Python truthiness of a section validator's return value: `None`
and `False` are falsy. -/
def pyTruthy : Option Bool → Bool
  | none => false
  | some b => b

/-- Outcome of `validateConfig`: either a normal return or a raised
`ConfigValidationTestFailedError` carrying the failed test's name. -/
inductive ValidationOutcome where
  | normal
  | raised (test : String)
deriving DecidableEq

/-- `validateConfig`: run the enabled tests (only the basic one) and
raise `ConfigValidationTestFailedError(test)` on a falsy result. -/
def validateConfig (fm : String → String → Bool)
    (config schema types : PyVal) : Except PyErr ValidationOutcome :=
  match validate_basic fm config schema types with
  | .error e => .error e
  | .ok r =>
    if pyTruthy r then .ok .normal
    else .ok (.raised ("Test to validate basic configuration"))

def digitChar (d : Nat) : Char :=
  match d with
  | 0 => '0'
  | 1 => '1'
  | 2 => '2'
  | 3 => '3'
  | 4 => '4'
  | 5 => '5'
  | 6 => '6'
  | 7 => '7'
  | 8 => '8'
  | 9 => '9'
  | _ => '*'

def natStrAux : Nat → Nat → List Char
  | 0, _ => []
  | fuel + 1, n =>
    if n < 10 then [digitChar n]
    else natStrAux fuel (n / 10) ++ [digitChar (n % 10)]

/-- Python `str(n)` for a natural number: its decimal digit string.
The fuel `n + 1` suffices since each step divides `n` by ten. -/
def natStr (n : Nat) : String :=
  String.mk (natStrAux (n + 1) n)

/-- Python `str(i)` for an integer. -/
def intStr (i : Int) : String :=
  if i < 0 then "-" ++ natStr i.natAbs else natStr i.natAbs

/-- Python `sep.join(l)`. -/
def strJoin (sep : String) : List String → String
  | [] => ""
  | [x] => x
  | x :: y :: rest => x ++ sep ++ strJoin sep (y :: rest)

/-- Python `' '.join(s.split('/'))`: replaces every slash by a space. -/
def spaceForSlash (s : String) : String :=
  String.mk (s.data.map (fun c => if c == '/' then ' ' else c))

/-- Dotted-quad rendering of a 32-bit value, as `ipaddress` prints
addresses and netmasks. -/
def dottedQuad (x : Nat) : String :=
  natStr (x / 16777216 % 256) ++ "." ++ natStr (x / 65536 % 256) ++ "."
    ++ natStr (x / 256 % 256) ++ "." ++ natStr (x % 256)

/-- An IPv4 network (`ipaddress.IPv4Network`): a 32-bit network
address and a prefix length. -/
structure IPv4Network where
  address : Nat
  prefixLen : Nat
deriving DecidableEq

/-- `str(network)`: CIDR form `a.b.c.d/p`. -/
def IPv4Network.with_prefixlen (n : IPv4Network) : String :=
  dottedQuad n.address ++ "/" ++ natStr n.prefixLen

/-- The 32-bit netmask value determined by the prefix length. -/
def IPv4Network.netmaskValue (n : IPv4Network) : Nat :=
  2 ^ 32 - 2 ^ (32 - n.prefixLen)

/-- `network.with_netmask`: `a.b.c.d/m.m.m.m`. -/
def IPv4Network.with_netmask (n : IPv4Network) : String :=
  dottedQuad n.address ++ "/" ++ dottedQuad (IPv4Network.netmaskValue n)

/-- Modelled from the spec: the `Route` record of `jargen/objects.py`
(that file is not among the sources) — `network` (IPv4 prefix),
`aspath` (ordered sequence of AS numbers, may be empty), `communities`
(sequence of community strings, may be empty), `origin` (one of
`igp`/`egp`/`incomplete`, stored as its lowercase name). -/
structure Route where
  network : IPv4Network
  aspath : List Nat
  communities : List String
  origin : String
deriving DecidableEq

/-- Modelled from the spec: `Route.aspath_as_str` of `jargen/objects.py`
(not among the sources) — the AS numbers of `aspath` as their decimal
string forms, in order. -/
def Route.aspath_as_str (r : Route) : List String :=
  r.aspath.map natStr

/-- The grouping key the IOS compiler builds for `routeDict`:
`(" ".join(route.aspath_as_str), " ".join(route.communities),
route.origin)`. -/
def groupKey (r : Route) : String × String × String :=
  (strJoin (" ") (Route.aspath_as_str r), strJoin (" ") r.communities, r.origin)

/-- One `routeDict[key].append(network)` step on a `defaultdict(list)`
represented as an insertion-ordered association list. -/
def insertRoute (acc : List ((String × String × String) × List IPv4Network))
    (k : String × String × String) (n : IPv4Network) :
    List ((String × String × String) × List IPv4Network) :=
  if acc.any (fun p => decide (p.1 = k)) then
    acc.map (fun p => if p.1 = k then (p.1, p.2 ++ [n]) else p)
  else acc ++ [(k, [n])]

/-- The `routeDict` of `config_ios`: routes grouped by `groupKey`, keys
in first-seen order, each group's networks in input order. -/
def groupRoutes (routes : List Route) :
    List ((String × String × String) × List IPv4Network) :=
  routes.foldl (fun acc r => insertRoute acc (groupKey r) r.network) []

/-- One static-route line of `config_ios`. -/
def iosStaticLine (baseRouteCommand : String) (net : IPv4Network) : String :=
  baseRouteCommand ++ " " ++ spaceForSlash (IPv4Network.with_netmask net) ++ " null0"

/-- The lines `config_ios` appends for the group of index `idx` (zero
based): the prefix-list entries, the route-map clause with its
conditionally-empty set lines, and — when `localAS` is positive — the
per-group BGP redistribution pair. Empty strings are filtered out at
the end of `config_ios`, as in the source. -/
def iosGroupBlock (localAS : Int) (idx : Nat) (key : String × String × String)
    (nets : List IPv4Network) : List String :=
  let plName := "ROUTEGEN-PL" ++ natStr (idx + 1)
  nets.enum.map (fun p =>
      "ip prefix-list " ++ plName ++ " seq " ++ natStr (p.1 + 1) ++ " permit "
        ++ IPv4Network.with_prefixlen p.2)
    ++ ["route-map ROUTEGEN-RM permit " ++ natStr (idx + 1),
        "  match ip address prefix-list " ++ plName,
        if key.1 == "" then "" else "  set as-path prepend " ++ key.1,
        if key.2.1 == "" then "" else "  set community add " ++ key.2.1,
        if key.2.2 == "igp" then "" else "  set origin " ++ key.2.2]
    ++ (if localAS > 0 then
          ["router bgp " ++ intStr localAS, "redistribute static route-map ROUTEGEN-RM"]
        else [])

/-- `config_ios`: the configuration text for Cisco IOS/IOS-XE — static
null routes in input order, then per-group prefix-lists and route-map
clauses, joined by newlines with empty strings filtered out. The
source writes the text to disk; the embedding returns it. -/
def config_ios (routes : List Route) (localAS : Int) (vrf : String) : String :=
  let baseRouteCommand := if vrf == "" then "ip route" else "ip route vrf " ++ vrf
  let staticLines := routes.map (fun route => iosStaticLine baseRouteCommand route.network)
  let routeDict := groupRoutes routes
  let groupLines := (routeDict.enum.map (fun p => iosGroupBlock localAS p.1 p.2.1 p.2.2)).flatten
  strJoin ("\n") ((staticLines ++ groupLines).filter (fun x => !(x == "")))

/-- One static-route command of `config_junos`, with its conditional
community, as-path and origin clauses. -/
def junosRouteCmd (baseRouteCommand : String) (route : Route) : String :=
  let command := baseRouteCommand ++ " " ++ IPv4Network.with_prefixlen route.network ++ " discard"
  let command := command ++
    (if route.communities.isEmpty then ""
     else " community [ " ++ strJoin (" ") route.communities ++ " ]")
  let command := command ++
    (if route.aspath.isEmpty then ""
     else " as-path path \"" ++ strJoin (" ") (Route.aspath_as_str route) ++ "\"")
  command ++ (if route.origin == "igp" then "" else " as-path origin " ++ route.origin)

/-- `config_junos`: the configuration text for Junos — one static
route command per route, then the two ROUTEGEN-POLICY statements. In
the source, the export-policy attachment built under `if bgpGroup:` is
appended with `+=` to the loop-local variable `command`, which is
never read afterwards, so it never reaches `config` nor the output;
the dead store is kept here as an unused binding. -/
def config_junos (routes : List Route) (vrf bgpGroup : String) : String :=
  let baseCommand := if vrf == "" then "set" else "set routing-instances " ++ vrf
  let baseRouteCommand := strJoin (" ") [baseCommand, "routing-options static route"]
  let config := routes.map (junosRouteCmd baseRouteCommand)
  let basePolicyCommand := "set policy-options policy-statement ROUTEGEN-POLICY term 1"
  let config := config ++
    [basePolicyCommand ++ " from protocol static", basePolicyCommand ++ " then accept"]
  let _attachmentDeadStore :=
    if bgpGroup == "" then ""
    else baseCommand ++ " protocols bgp group " ++ bgpGroup ++ " export ROUTEGEN-POLICY"
  strJoin ("\n") config

/-- A raised exception of the generator layer. -/
inductive GenError where
  | notImplementedError (msg : String)
deriving DecidableEq

/-- `config_iosxr`: always raises `NotImplementedError`. -/
def config_iosxr : Except GenError String :=
  .error (.notImplementedError ("IOS-XR configuration generation is not implemented yet."))

/-- Tags identifying the compiler functions stored as values of the
`platforms` dispatch dict. -/
inductive PlatformCompiler where
  | ios
  | junos
  | container
deriving DecidableEq

/-- The `platforms` dispatch table of `generate_config.py`: it maps
exactly `ios`, `junos` and `container`. -/
def platforms : List (String × PlatformCompiler) :=
  [(("ios"), PlatformCompiler.ios), (("junos"), PlatformCompiler.junos),
   (("container"), PlatformCompiler.container)]

/-- Dispatch by platform identifier: `platforms[name]`, `none` playing
the role of the `KeyError` an unknown identifier raises. -/
def lookupPlatform (name : String) : Option PlatformCompiler :=
  match platforms.find? (fun p => p.1 == name) with
  | some p => some p.2
  | none => none

/-- The policy triple of a route, following the spec's words: its
`(aspath, communities, origin)`. -/
def routeTriple (r : Route) : List Nat × List String × String :=
  (r.aspath, r.communities, r.origin)

/-- The number of distinct `(aspath, communities, origin)` triples in
a route list, following the spec's words on grouping correctness. -/
def distinctPolicyTriples (routes : List Route) : Nat :=
  ((routes.map routeTriple).dedup).length

/-- The network list stored under key `k` in an association list of
groups (first match; keys are unique in `groupRoutes` results). -/
def lookList (k : String × String × String) :
    List ((String × String × String) × List IPv4Network) → List IPv4Network
  | [] => []
  | p :: rest => if p.1 = k then p.2 else lookList k rest

/-- The networks of the routes whose grouping key is `k`, in input
order: what the group of key `k` must contain. -/
def netsOf (k : String × String × String) (routes : List Route) :
    List IPv4Network :=
  (routes.filter (fun r => decide (groupKey r = k))).map Route.network

/-- Whether a type-template node is a scalar leaf (neither a mapping
nor a sequence). -/
def isScalarTemplate : PyVal → Bool
  | .pdict _ => false
  | .plist _ => false
  | _ => true

/-- Whether a value is a dict all of whose values are hashable — the
condition under which `tuple(d.items())` can be built and hashed. -/
def isHashableDict : PyVal → Bool
  | .pdict entries => entries.all (fun e => pyHashable e.2)
  | _ => false

/-- The entry list of a dict value (`d.items()`); `[]` on non-dicts. -/
def entriesOf : PyVal → List (String × PyVal)
  | .pdict entries => entries
  | _ => []

/-- The network 10.0.0.0/24 (address `10 * 2^24`). -/
def netA : IPv4Network := { address := 167772160, prefixLen := 24 }

/-- The network 10.0.1.0/24. -/
def netB : IPv4Network := { address := 167772416, prefixLen := 24 }

/-- Scenario 1's first route: 10.0.0.0/24 with empty policy attributes. -/
def routeA : Route := { network := netA, aspath := [], communities := [], origin := "igp" }

/-- Scenario 1's second route: 10.0.1.0/24 with empty policy attributes. -/
def routeB : Route := { network := netB, aspath := [], communities := [], origin := "igp" }

/-- A route whose single community string contains a space. -/
def routeCommAB : Route :=
  { network := netA, aspath := [], communities := ["a b"], origin := "igp" }

/-- A route with the same network as `routeCommAB` but two communities
whose space-join coincides with `routeCommAB`'s. -/
def routeCommA_B : Route :=
  { network := netA, aspath := [], communities := ["a", "b"], origin := "igp" }

/-- Like `routeCommA_B` but on the network 10.0.1.0/24. -/
def routeCollide : Route :=
  { network := netB, aspath := [], communities := ["a", "b"], origin := "igp" }

/-- The numeric value of a decimal digit string (inverse of `natStr`),
used to prove `natStr` injective. -/
def charsVal (l : List Char) : Nat :=
  l.foldl (fun acc c => acc * 10 + (c.toNat - 48)) 0

/-- Space-join at the character level, mirroring `strJoin " "`. -/
def joinChars : List (List Char) → List Char
  | [] => []
  | [x] => x
  | x :: y :: rest => x ++ ' ' :: joinChars (y :: rest)

/-- C7: compiling Scenario 1 (10.0.0.0/24 and 10.0.1.0/24, both with
empty aspath, empty communities, origin igp) for IOS with no localAS
and no vrf yields exactly two `ip route ... null0` lines, one
prefix-list with sequence entries 1 and 2, one route-map clause with
only the prefix-list match and no set clauses, and no `router bgp` or
redistribute lines. -/
theorem c7_scenario1_ios_output :
    config_ios [routeA, routeB] (-1) "" =
      "ip route 10.0.0.0 255.255.255.0 null0\n"
        ++ "ip route 10.0.1.0 255.255.255.0 null0\n"
        ++ "ip prefix-list ROUTEGEN-PL1 seq 1 permit 10.0.0.0/24\n"
        ++ "ip prefix-list ROUTEGEN-PL1 seq 2 permit 10.0.1.0/24\n"
        ++ "route-map ROUTEGEN-RM permit 1\n"
        ++ "  match ip address prefix-list ROUTEGEN-PL1" := by
  rfl

/-- C2: code bug — the Junos compiler never emits the export-policy
attachment: the output does not depend on `bgpGroup` at all (the
attachment statement is accumulated into a dead local variable), and
at a concrete route with `bgpGroup = "PEERS"` the output consists of
exactly the static-route line and the two policy-statement lines. -/
theorem c2_junos_attachment_never_emitted :
    (∀ (routes : List Route) (vrf bgpGroup : String),
        config_junos routes vrf bgpGroup = config_junos routes vrf "")
      ∧ config_junos [routeA] "" "PEERS" =
          "set routing-options static route 10.0.0.0/24 discard\n"
            ++ "set policy-options policy-statement ROUTEGEN-POLICY term 1 from protocol static\n"
            ++ "set policy-options policy-statement ROUTEGEN-POLICY term 1 then accept" :=
  ⟨fun _ _ _ => rfl, rfl⟩

/-- C8 counterexample: dispatch does not distinguish IOS-XR from an
unknown platform — the `platforms` table resolves `iosxr` to nothing,
exactly as it resolves an arbitrary unknown identifier, even though
`config_iosxr` itself raises `NotImplementedError`. -/
theorem c8_counterexample_iosxr_dispatch :
    lookupPlatform ("iosxr") = none
      ∧ lookupPlatform ("no-such-platform") = none
      ∧ config_iosxr =
          Except.error (GenError.notImplementedError
            ("IOS-XR configuration generation is not implemented yet.")) :=
  ⟨rfl, rfl, rfl⟩

/-- C8 amended: the IOS-XR compiler function always raises
`NotImplementedError`, but the `platforms` dispatch table contains
only `ios`, `junos` and `container`, so dispatching the identifier
`iosxr` fails exactly like an unknown identifier (a `KeyError`), not
distinctly from it. -/
theorem c8_amended_iosxr_unreachable :
    config_iosxr =
        Except.error (GenError.notImplementedError
          ("IOS-XR configuration generation is not implemented yet."))
      ∧ platforms.map Prod.fst = ["ios", "junos", "container"]
      ∧ lookupPlatform ("iosxr") = lookupPlatform ("unknown") :=
  ⟨rfl, rfl, rfl⟩

theorem validate_basic_result (fm : String → String → Bool) (c s t : PyVal)
    (b : Option Bool) (h : validate_basic fm c s t = .ok b) :
    b = some false ∨ b = none := by
  unfold validate_basic validate_base at h
  rcases h1 : pySubscript c (PyVal.pstr ("basic")) with _ | cv
  · simp [h1] at h
  simp only [h1] at h
  rcases h2 : pySubscript s (PyVal.pstr ("basic")) with _ | sv
  · simp [h2] at h
  simp only [h2] at h
  rcases h3 : pySubscript t (PyVal.pstr ("basic")) with _ | tv
  · simp [h3] at h
  simp only [h3] at h
  rcases h4 : basic_validation_caller fm cv sv tv with _ | bv
  · simp [h4] at h
  simp only [h4] at h
  cases bv
  · left
    simp only [] at h
    injection h with h5
    exact h5.symm
  · right
    simp only [stub_refinement] at h
    injection h with h5
    exact h5.symm

/-- C1: code bug — `validateConfig` never returns normally: the
enabled test wraps a refinement whose body is `pass`, so it returns
`None`, which the orchestrator treats as a failure. Every run either
raises `ConfigValidationTestFailedError` for the basic test or
propagates a Python exception; in particular on a document whose
`basic` subtree passes the generic validator (shown explicitly for the
empty `basic` section), `validateConfig` still raises instead of
returning. -/
theorem c1_validateConfig_always_raises :
    (∀ (fm : String → String → Bool) (c s t : PyVal),
        validateConfig fm c s t
            = .ok (.raised ("Test to validate basic configuration"))
          ∨ ∃ e, validateConfig fm c s t = .error e)
      ∧ basic_validation_caller litFullmatch (.pdict [])
          (.pdict [("required", .plist [])]) (.pdict []) = .ok true
      ∧ validateConfig litFullmatch
          (.pdict [("basic", .pdict [])])
          (.pdict [("basic", .pdict [("required", .plist [])])])
          (.pdict [("basic", .pdict [])])
          = .ok (.raised ("Test to validate basic configuration")) := by
  refine ⟨?_, rfl, rfl⟩
  intro fm c s t
  rcases hv : validate_basic fm c s t with e | r
  · right
    exact ⟨e, by unfold validateConfig; rw [hv]⟩
  · left
    unfold validateConfig
    rw [hv]
    rcases validate_basic_result fm c s t r hv with rfl | rfl <;>
      simp [pyTruthy]

theorem groupRoutes_congr_aux :
    ∀ (l1 l2 : List Route)
      (acc : List ((String × String × String) × List IPv4Network)),
      l1.map groupKey = l2.map groupKey →
      l1.map Route.network = l2.map Route.network →
      l1.foldl (fun a r => insertRoute a (groupKey r) r.network) acc =
        l2.foldl (fun a r => insertRoute a (groupKey r) r.network) acc
  | [], [], _, _, _ => rfl
  | r1 :: t1, r2 :: t2, acc, hk, hn => by
    simp only [List.map_cons, List.cons.injEq] at hk hn
    simp only [List.foldl_cons]
    rw [hk.1, hn.1]
    exact groupRoutes_congr_aux t1 t2 _ hk.2 hn.2
  | [], _ :: _, _, hk, _ => by simp at hk
  | _ :: _, [], _, hk, _ => by simp at hk

theorem config_ios_def (routes : List Route) (localAS : Int) (vrf : String) :
    config_ios routes localAS vrf =
      strJoin ("\n")
        ((routes.map (fun route =>
            iosStaticLine (if vrf == "" then "ip route" else "ip route vrf " ++ vrf)
              route.network)
          ++ ((groupRoutes routes).enum.map
              (fun p => iosGroupBlock localAS p.1 p.2.1 p.2.2)).flatten).filter
          (fun x => !(x == ""))) :=
  rfl

/-- C9: the IOS and Junos compilers are deterministic — the emitted
text is a function of the inputs, and for IOS the grouping and
enumeration depend only on the input order of the per-route pairs
(grouping key, network): two route lists that agree pointwise on
networks and grouping keys compile to byte-identical IOS text, and the
Junos compiler yields identical text on identical inputs. -/
theorem c9_deterministic (routes1 routes2 : List Route) (localAS : Int)
    (vrf bgpGroup : String)
    (hnet : routes1.map Route.network = routes2.map Route.network)
    (hkey : routes1.map groupKey = routes2.map groupKey) :
    config_ios routes1 localAS vrf = config_ios routes2 localAS vrf
      ∧ config_junos routes1 vrf bgpGroup = config_junos routes1 vrf bgpGroup := by
  refine ⟨?_, rfl⟩
  have hg : groupRoutes routes1 = groupRoutes routes2 :=
    groupRoutes_congr_aux routes1 routes2 [] hkey hnet
  have hstat : ∀ B : String,
      routes1.map (fun route => iosStaticLine B route.network) =
        routes2.map (fun route => iosStaticLine B route.network) := by
    intro B
    rw [show (fun route => iosStaticLine B route.network) =
          ((fun n => iosStaticLine B n) ∘ Route.network) from rfl,
        ← List.map_map, ← List.map_map, hnet]
  rw [config_ios_def, config_ios_def, hg, hstat]

/-- C9 witness: two concrete one-route lists that differ in how the
communities are listed but agree on networks and grouping keys compile
to identical IOS output. -/
theorem c9_deterministic_witness :
    ([routeCommAB].map Route.network = [routeCommA_B].map Route.network)
      ∧ ([routeCommAB].map groupKey = [routeCommA_B].map groupKey)
      ∧ (config_ios [routeCommAB] (-1) "" = config_ios [routeCommA_B] (-1) ""
          ∧ config_junos [routeCommAB] "" "" = config_junos [routeCommAB] "" "") :=
  ⟨rfl, rfl, c9_deterministic [routeCommAB] [routeCommA_B] (-1) "" "" rfl rfl⟩

theorem bvc_singleton_leaf (fm : String → String → Bool) (k r : String) (v t : PyVal)
    (hk : k ≠ "required") (ht : isScalarTemplate t = true) :
    basic_validation_caller fm (.pdict [(k, v)])
      (.pdict [("required", .plist []), (k, .pdict [("regex", .pstr r)])])
      (.pdict [(k, t)])
    = .ok (isinstance v (pyTypeOf t) && fm r (pyStr v)) := by
  have hk2 : (("required" : String) == k) = false := by
    simp only [beq_eq_false_iff_ne]
    exact fun h => hk h.symm
  unfold basic_validation_caller
  have hfuel : pySize (PyVal.pdict [(k, v)]) = (1 + pySize v) + 1 := by
    simp [pySize, pySizeEntries]
    omega
  rw [hfuel]
  cases t with
  | pdict es => simp [isScalarTemplate] at ht
  | plist es => simp [isScalarTemplate] at ht
  | pstr s =>
    simp only [bvcF, basic_validation_dict, allIn, pyContains, pyIter,
      pySubscript, lookupEntry, bvcDictLoopF, bvcChildF, List.map, List.any,
      beq_self_eq_true, hk2, Bool.false_or, Bool.or_false, Bool.true_and,
      Bool.and_true, if_true, if_false]
    cases hi : isinstance v (pyTypeOf (PyVal.pstr s))
    · simp [hi]
    · cases hf : fm r (pyStr v) <;> simp [hi, hf, lookupEntry]
  | pint n =>
    simp only [bvcF, basic_validation_dict, allIn, pyContains, pyIter,
      pySubscript, lookupEntry, bvcDictLoopF, bvcChildF, List.map, List.any,
      beq_self_eq_true, hk2, Bool.false_or, Bool.or_false, Bool.true_and,
      Bool.and_true, if_true, if_false]
    cases hi : isinstance v (pyTypeOf (PyVal.pint n))
    · simp [hi]
    · cases hf : fm r (pyStr v) <;> simp [hi, hf, lookupEntry]
  | pbool b =>
    simp only [bvcF, basic_validation_dict, allIn, pyContains, pyIter,
      pySubscript, lookupEntry, bvcDictLoopF, bvcChildF, List.map, List.any,
      beq_self_eq_true, hk2, Bool.false_or, Bool.or_false, Bool.true_and,
      Bool.and_true, if_true, if_false]
    cases hi : isinstance v (pyTypeOf (PyVal.pbool b))
    · simp [hi]
    · cases hf : fm r (pyStr v) <;> simp [hi, hf, lookupEntry]

/-- C3 counterexample: the verdict at a scalar leaf is not determined
by the type/constraint tree — with the same value and the same types
document, changing only the regex stored in the schema tree flips the
verdict, so the leaf regex is read from the schema (second argument),
contradicting the claim that it is carried by the third argument. -/
theorem c3_counterexample_regex_from_schema :
    basic_validation_caller litFullmatch (.pdict [("a", .pstr ("x"))])
        (.pdict [("required", .plist []), ("a", .pdict [("regex", .pstr ("x"))])])
        (.pdict [("a", .pstr (""))]) = .ok true
      ∧ basic_validation_caller litFullmatch (.pdict [("a", .pstr ("x"))])
          (.pdict [("required", .plist []), ("a", .pdict [("regex", .pstr ("y"))])])
          (.pdict [("a", .pstr (""))]) = .ok false :=
  ⟨rfl, rfl⟩

/-- C3 amended: at a scalar leaf (a key other than `required`, a
scalar type-template node whose runtime type the value matches), the
verdict is true iff the string representation of the value fully
matches the regex stored under the `regex` key of the corresponding
leaf of the schema tree (the second argument); the type tree's leaf
contributes only the expected runtime type. -/
theorem c3_amended_leaf_regex (fm : String → String → Bool) (k r : String)
    (v t : PyVal) (hk : k ≠ "required") (ht : isScalarTemplate t = true)
    (hi : isinstance v (pyTypeOf t) = true) :
    basic_validation_caller fm (.pdict [(k, v)])
      (.pdict [("required", .plist []), (k, .pdict [("regex", .pstr r)])])
      (.pdict [(k, t)])
    = .ok (fm r (pyStr v)) := by
  rw [bvc_singleton_leaf fm k r v t hk ht, hi, Bool.true_and]

/-- C3 witness: the amended statement applied at a concrete input. -/
theorem c3_amended_leaf_regex_witness :
    (("a" : String) ≠ "required")
      ∧ isScalarTemplate (.pstr ("")) = true
      ∧ isinstance (.pstr ("x")) (pyTypeOf (.pstr (""))) = true
      ∧ basic_validation_caller litFullmatch (.pdict [("a", .pstr ("x"))])
          (.pdict [("required", .plist []), ("a", .pdict [("regex", .pstr ("x"))])])
          (.pdict [("a", .pstr (""))])
          = .ok (litFullmatch ("x") (pyStr (.pstr ("x")))) :=
  ⟨by decide, rfl, rfl,
    c3_amended_leaf_regex litFullmatch ("a") ("x") (.pstr ("x")) (.pstr (""))
      (by decide) rfl rfl⟩

/-- C4 counterexample: the verdict at a scalar leaf does not depend
only on the string representation — `1` and `"1"` have the same string
form, yet against an `int` type-template leaf and the regex `1` the
integer passes and the string fails the `isinstance` gate. -/
theorem c4_counterexample_runtime_type_matters :
    pyStr (.pint 1) = pyStr (.pstr ("1"))
      ∧ basic_validation_caller litFullmatch (.pdict [("a", .pint 1)])
          (.pdict [("required", .plist []), ("a", .pdict [("regex", .pstr ("1"))])])
          (.pdict [("a", .pint 0)]) = .ok true
      ∧ basic_validation_caller litFullmatch (.pdict [("a", .pstr ("1"))])
          (.pdict [("required", .plist []), ("a", .pdict [("regex", .pstr ("1"))])])
          (.pdict [("a", .pint 0)]) = .ok false :=
  ⟨rfl, rfl, rfl⟩

/-- C4 amended: among leaf values that pass the runtime `isinstance`
check against the type-template leaf, the verdict depends only on the
string representation: two such values with equal string form receive
the same verdict at the same leaf node; a value failing the type check
is rejected regardless of its string form. -/
theorem c4_amended_string_form (fm : String → String → Bool) (k r : String)
    (v1 v2 t : PyVal) (hk : k ≠ "required") (ht : isScalarTemplate t = true)
    (h1 : isinstance v1 (pyTypeOf t) = true)
    (h2 : isinstance v2 (pyTypeOf t) = true)
    (hs : pyStr v1 = pyStr v2) :
    basic_validation_caller fm (.pdict [(k, v1)])
        (.pdict [("required", .plist []), (k, .pdict [("regex", .pstr r)])])
        (.pdict [(k, t)])
      = basic_validation_caller fm (.pdict [(k, v2)])
          (.pdict [("required", .plist []), (k, .pdict [("regex", .pstr r)])])
          (.pdict [(k, t)]) := by
  rw [bvc_singleton_leaf fm k r v1 t hk ht, bvc_singleton_leaf fm k r v2 t hk ht,
    h1, h2, hs]

/-- C4 witness: the amended statement applied at a concrete input. -/
theorem c4_amended_string_form_witness :
    (("a" : String) ≠ "required")
      ∧ isScalarTemplate (.pint 0) = true
      ∧ isinstance (.pint 7) (pyTypeOf (.pint 0)) = true
      ∧ pyStr (.pint 7) = pyStr (.pint 7)
      ∧ basic_validation_caller litFullmatch (.pdict [("a", .pint 7)])
          (.pdict [("required", .plist []), ("a", .pdict [("regex", .pstr ("7"))])])
          (.pdict [("a", .pint 0)])
        = basic_validation_caller litFullmatch (.pdict [("a", .pint 7)])
            (.pdict [("required", .plist []), ("a", .pdict [("regex", .pstr ("7"))])])
            (.pdict [("a", .pint 0)]) :=
  ⟨by decide, rfl, rfl, rfl,
    c4_amended_string_form litFullmatch ("a") ("7") (.pint 7) (.pint 7) (.pint 0)
      (by decide) rfl rfl rfl rfl⟩

theorem allIn_keys_ok (se : List (String × PyVal)) :
    ∀ ce : List (String × PyVal),
      (∀ p ∈ ce, se.any (fun e => e.1 == p.1) = true) →
      allIn (.pdict se) (ce.map (fun e => PyVal.pstr e.1)) = .ok true := by
  intro ce h
  induction ce with
  | nil => rfl
  | cons p rest ih =>
    simp only [List.map_cons, allIn, pyContains]
    rw [h p (List.mem_cons_self p rest),
      ih (fun q hq => h q (List.mem_cons_of_mem p hq))]
    rfl

/-- C10 counterexample: the `required` entry of the schema is not read
unconditionally — for a mapping with a key absent from the schema, the
invalid-key check fails first and the validator returns the boolean
`False`, not a `KeyError`, even though the schema lacks `required`. -/
theorem c10_counterexample_invalid_key_first :
    basic_validation_caller litFullmatch (.pdict [("a", .pint 1)])
      (.pdict []) (.pdict []) = .ok false :=
  rfl

/-- C10 amended: for every mapping value all of whose keys occur in
the schema mapping, if the schema lacks a `required` entry the
validator raises `KeyError("required")` instead of returning a
boolean — in particular the empty mapping against the empty schema
raises. (A config key literally named `required` passes the key check
against any schema, since schemas carry `required` themselves.) -/
theorem c10_amended_required_keyerror (fm : String → String → Bool)
    (ce se : List (String × PyVal)) (types : PyVal)
    (hreq : lookupEntry ("required") se = none)
    (hkeys : ∀ p ∈ ce, se.any (fun e => e.1 == p.1) = true) :
    basic_validation_caller fm (.pdict ce) (.pdict se) types
      = .error (.keyError ("required")) := by
  unfold basic_validation_caller
  have hfuel : pySize (PyVal.pdict ce) = pySizeEntries ce + 1 := by
    simp [pySize]
    omega
  rw [hfuel]
  simp only [bvcF, basic_validation_dict]
  rw [allIn_keys_ok se ce hkeys]
  simp [pySubscript, hreq]

/-- C10 witness: the empty mapping against the empty schema raises
`KeyError("required")`. -/
theorem c10_amended_required_keyerror_witness :
    lookupEntry ("required") ([] : List (String × PyVal)) = none
      ∧ basic_validation_caller litFullmatch (.pdict []) (.pdict [])
          (.pdict []) = .error (.keyError ("required")) :=
  ⟨rfl, c10_amended_required_keyerror litFullmatch [] [] (.pdict []) rfl
    (fun p hp => absurd hp (List.not_mem_nil p))⟩

theorem countDistinctBy_le {α : Type} (eq : α → α → Bool) :
    ∀ l : List α, countDistinctBy eq l ≤ l.length
  | [] => Nat.le_refl 0
  | x :: xs => by
    simp only [countDistinctBy, List.length_cons]
    have := countDistinctBy_le eq xs
    split <;> omega

theorem countDistinctBy_lt_of_dup {α : Type} (eq : α → α → Bool) :
    ∀ (pre : List α) (x : α) (mid : List α) (y : α) (post : List α),
      eq x y = true →
      countDistinctBy eq (pre ++ x :: mid ++ y :: post)
        < (pre ++ x :: mid ++ y :: post).length
  | [], x, mid, y, post, h => by
    have hany : (mid ++ y :: post).any (eq x) = true := by
      simp [List.any_append, List.any_cons, h]
    have hle := countDistinctBy_le eq (mid ++ y :: post)
    simp only [List.nil_append, countDistinctBy, List.length_cons, List.append_eq]
    rw [if_pos hany]
    have hlc : (x :: mid ++ y :: post).length = (mid ++ y :: post).length + 1 := by
      simp
    omega
  | p :: pre, x, mid, y, post, h => by
    have hlt := countDistinctBy_lt_of_dup eq pre x mid y post h
    simp only [List.cons_append, countDistinctBy, List.length_cons, List.append_eq]
    split <;> omega

theorem dictItemsAll_ok : ∀ es : List PyVal, es.all isHashableDict = true →
    dictItemsAll es = .ok (es.map entriesOf)
  | [], _ => rfl
  | v :: rest, h => by
    simp only [List.all_cons, Bool.and_eq_true] at h
    cases v with
    | pdict entries =>
      have h1 : entries.all (fun e => pyHashable e.2) = true := by
        simpa [isHashableDict] using h.1
      simp only [dictItemsAll, List.map_cons, entriesOf, h1, if_true]
      rw [dictItemsAll_ok rest h.2]
    | pstr s => exact absurd h.1 (by simp [isHashableDict])
    | pint n => exact absurd h.1 (by simp [isHashableDict])
    | pbool b => exact absurd h.1 (by simp [isHashableDict])
    | plist es2 => exact absurd h.1 (by simp [isHashableDict])

/-- C5 counterexample: two mapping elements with equal key/value pairs
but different key order are not detected as duplicates — they are
equal under Python `==`, yet the validator accepts the whole sequence
(it compares ordered `tuple(d.items())` values, which differ). -/
theorem c5_counterexample_permuted_dicts :
    pyEq (.pdict [("a", .pstr ("1")), ("b", .pstr ("2"))])
        (.pdict [("b", .pstr ("2")), ("a", .pstr ("1"))]) = true
      ∧ basic_validation_caller litFullmatch
          (.plist [.pdict [("a", .pstr ("1")), ("b", .pstr ("2"))],
                   .pdict [("b", .pstr ("2")), ("a", .pstr ("1"))]])
          (.plist [.pdict [("required", .plist []),
                           ("a", .pdict [("regex", .pstr ("1"))]),
                           ("b", .pdict [("regex", .pstr ("2"))])]])
          (.plist [.pdict [("a", .pstr ("")), ("b", .pstr (""))]])
          = .ok true :=
  ⟨rfl, rfl⟩

/-- C5 amended: duplicate mapping elements are detected by comparing
ordered item tuples — a sequence of mappings with hashable values that
contains two elements whose key/value pairs are equal in the same key
order is rejected by the sequence check; equal mappings whose keys
appear in different orders are not flagged. -/
theorem c5_amended_ordered_items (es1 es2 es3 : List PyVal)
    (l1 l2 : List (String × PyVal))
    (hall : (es1 ++ PyVal.pdict l1 :: es2 ++ PyVal.pdict l2 :: es3).all
        isHashableDict = true)
    (hdup : itemsEq l1 l2 = true) :
    basic_validation_list (es1 ++ PyVal.pdict l1 :: es2 ++ PyVal.pdict l2 :: es3)
      = .ok false := by
  have hcond : ¬((es1 ++ PyVal.pdict l1 :: es2 ++ PyVal.pdict l2 :: es3).all
      pyHashable = true) := by
    simp [List.all_append, List.all_cons, pyHashable]
  have hmap : (es1 ++ PyVal.pdict l1 :: es2 ++ PyVal.pdict l2 :: es3).map entriesOf
      = es1.map entriesOf ++ l1 :: es2.map entriesOf ++ l2 :: es3.map entriesOf := by
    simp [entriesOf]
  have hlt := countDistinctBy_lt_of_dup itemsEq (es1.map entriesOf) l1
    (es2.map entriesOf) l2 (es3.map entriesOf) hdup
  have hlen : (es1.map entriesOf ++ l1 :: es2.map entriesOf
      ++ l2 :: es3.map entriesOf).length
      = (es1 ++ PyVal.pdict l1 :: es2 ++ PyVal.pdict l2 :: es3).length := by
    simp
  have hne : countDistinctBy itemsEq
      (es1.map entriesOf ++ l1 :: es2.map entriesOf ++ l2 :: es3.map entriesOf)
      ≠ (es1 ++ PyVal.pdict l1 :: es2 ++ PyVal.pdict l2 :: es3).length := by
    omega
  have hbeq : (countDistinctBy itemsEq
      (es1.map entriesOf ++ l1 :: es2.map entriesOf ++ l2 :: es3.map entriesOf)
      == (es1 ++ PyVal.pdict l1 :: es2 ++ PyVal.pdict l2 :: es3).length) = false :=
    beq_eq_false_iff_ne.mpr hne
  unfold basic_validation_list
  rw [if_neg hcond, dictItemsAll_ok _ hall]
  show Except.ok (countDistinctBy itemsEq
      ((es1 ++ PyVal.pdict l1 :: es2 ++ PyVal.pdict l2 :: es3).map entriesOf)
      == (es1 ++ PyVal.pdict l1 :: es2 ++ PyVal.pdict l2 :: es3).length)
    = Except.ok false
  rw [hmap, hbeq]

/-- C5 witness: a sequence of two identical one-entry mappings is
rejected by the sequence check. -/
theorem c5_amended_ordered_items_witness :
    (([] ++ PyVal.pdict [("a", PyVal.pstr ("1"))]
        :: [] ++ PyVal.pdict [("a", PyVal.pstr ("1"))] :: []).all
      isHashableDict = true)
      ∧ itemsEq [("a", PyVal.pstr ("1"))] [("a", PyVal.pstr ("1"))] = true
      ∧ basic_validation_list ([] ++ PyVal.pdict [("a", PyVal.pstr ("1"))]
          :: [] ++ PyVal.pdict [("a", PyVal.pstr ("1"))] :: []) = .ok false :=
  ⟨rfl, rfl, c5_amended_ordered_items [] [] [] _ _ rfl rfl⟩

theorem digitChar_ne_space (d : Nat) : digitChar d ≠ ' ' := by
  unfold digitChar
  split <;> decide

theorem digitChar_toNat (d : Nat) (h : d < 10) : (digitChar d).toNat = 48 + d := by
  interval_cases d <;> rfl

theorem natStrAux_ne_nil : ∀ (fuel n : Nat), natStrAux (fuel + 1) n ≠ [] := by
  intro fuel n
  unfold natStrAux
  split <;> simp

theorem space_not_mem_natStrAux : ∀ (fuel n : Nat), ' ' ∉ natStrAux fuel n := by
  intro fuel
  induction fuel with
  | zero => intro n; simp [natStrAux]
  | succ fuel ih =>
    intro n
    unfold natStrAux
    split
    · intro hmem
      simp at hmem
      exact digitChar_ne_space n hmem.symm
    · intro hmem
      rcases List.mem_append.mp hmem with h | h
      · exact ih (n / 10) h
      · simp at h
        exact digitChar_ne_space (n % 10) h.symm

theorem charsVal_append_digit (l : List Char) (c : Char) :
    charsVal (l ++ [c]) = charsVal l * 10 + (c.toNat - 48) := by
  simp [charsVal, List.foldl_append]

theorem natStrAux_charsVal : ∀ fuel : Nat, ∀ n < fuel,
    charsVal (natStrAux fuel n) = n := by
  intro fuel
  induction fuel with
  | zero => intro n hn; omega
  | succ fuel ih =>
    intro n hn
    unfold natStrAux
    split
    · next h10 =>
      simp [charsVal, digitChar_toNat n h10]
    · next h10 =>
      push_neg at h10
      have hdiv : n / 10 < fuel := by
        have h1 : n / 10 < n := Nat.div_lt_self (by omega) (by omega)
        omega
      rw [charsVal_append_digit, ih (n / 10) hdiv,
        digitChar_toNat (n % 10) (Nat.mod_lt n (by omega))]
      omega

theorem charsVal_natStr (n : Nat) : charsVal ((natStr n).data) = n :=
  natStrAux_charsVal (n + 1) n (Nat.lt_succ_self n)

theorem natStr_injective : ∀ a b : Nat, natStr a = natStr b → a = b := by
  intro a b h
  have := congrArg (fun s => charsVal s.data) h
  simpa [charsVal_natStr] using this

theorem natStr_ne_empty (n : Nat) : (natStr n).data ≠ [] :=
  natStrAux_ne_nil n n

theorem space_not_mem_natStr (n : Nat) : ' ' ∉ (natStr n).data :=
  space_not_mem_natStrAux (n + 1) n

theorem strJoin_data : ∀ l : List String,
    (strJoin (" ") l).data = joinChars (l.map String.data)
  | [] => rfl
  | [x] => rfl
  | x :: y :: rest => by
    show (x ++ " " ++ strJoin (" ") (y :: rest)).data
      = x.data ++ ' ' :: joinChars ((y :: rest).map String.data)
    rw [String.data_append, String.data_append, ← strJoin_data (y :: rest)]
    simp

theorem append_space_inj : ∀ (a c b d : List Char), ' ' ∉ a → ' ' ∉ c →
    a ++ ' ' :: b = c ++ ' ' :: d → a = c ∧ b = d
  | [], [], b, d, _, _, h => by
    simp at h
    exact ⟨rfl, h⟩
  | [], x :: c, b, d, _, hc, h => by
    simp at h
    exact absurd (h.1 ▸ List.mem_cons_self x c) hc
  | x :: a, [], b, d, ha, _, h => by
    simp at h
    exact absurd (h.1 ▸ List.mem_cons_self x a) ha
  | x :: a, y :: c, b, d, ha, hc, h => by
    simp only [List.cons_append, List.cons.injEq] at h
    have ih := append_space_inj a c b d
      (fun hm => ha (List.mem_cons_of_mem x hm))
      (fun hm => hc (List.mem_cons_of_mem y hm)) h.2
    exact ⟨by rw [h.1, ih.1], ih.2⟩

theorem joinChars_inj : ∀ (l1 l2 : List (List Char)),
    (∀ x ∈ l1, x ≠ [] ∧ ' ' ∉ x) → (∀ x ∈ l2, x ≠ [] ∧ ' ' ∉ x) →
    joinChars l1 = joinChars l2 → l1 = l2
  | [], [], _, _, _ => rfl
  | [], [y], _, h2, h => absurd (show ([] : List Char) = y from h).symm (h2 y (by simp)).1
  | [], y :: z :: r, _, _, h =>
    absurd (show ([] : List Char) = y ++ ' ' :: joinChars (z :: r) from h) (by simp)
  | [x], [], h1, _, h => absurd (show x = ([] : List Char) from h) (h1 x (by simp)).1
  | [x], [y], _, _, h => by
    rw [show x = y from h]
  | [x], y :: z :: r, h1, h2, h => by
    have hsp : ' ' ∈ x := by
      rw [show x = y ++ ' ' :: joinChars (z :: r) from h]
      simp
    exact absurd hsp (h1 x (by simp)).2
  | x :: y :: r, [], _, _, h =>
    absurd (show x ++ ' ' :: joinChars (y :: r) = ([] : List Char) from h) (by simp)
  | x :: y :: r, [z], h1, h2, h => by
    have hsp : ' ' ∈ z := by
      rw [← show x ++ ' ' :: joinChars (y :: r) = z from h]
      simp
    exact absurd hsp (h2 z (by simp)).2
  | x :: y :: r, z :: w :: s, h1, h2, h => by
    obtain ⟨hxz, htail⟩ := append_space_inj x z _ _
      (h1 x (by simp)).2 (h2 z (by simp)).2
      (show x ++ ' ' :: joinChars (y :: r) = z ++ ' ' :: joinChars (w :: s) from h)
    have hrest := joinChars_inj (y :: r) (w :: s)
      (fun q hq => h1 q (List.mem_cons_of_mem x hq))
      (fun q hq => h2 q (List.mem_cons_of_mem z hq)) htail
    rw [hxz, hrest]

theorem string_ne_empty_of_data {s : String} (h : s.data ≠ []) : s ≠ "" :=
  fun he => h (by rw [he])

theorem strJoin_space_inj (l1 l2 : List String)
    (h1 : ∀ x ∈ l1, x ≠ "" ∧ ' ' ∉ x.data)
    (h2 : ∀ x ∈ l2, x ≠ "" ∧ ' ' ∉ x.data)
    (h : strJoin (" ") l1 = strJoin (" ") l2) : l1 = l2 := by
  have hd := congrArg String.data h
  rw [strJoin_data, strJoin_data] at hd
  have hmaps := joinChars_inj (l1.map String.data) (l2.map String.data)
    (fun x hx => by
      obtain ⟨s, hs, rfl⟩ := List.mem_map.mp hx
      refine ⟨?_, (h1 s hs).2⟩
      intro hnil
      exact (h1 s hs).1 (String.ext hnil)
      )
    (fun x hx => by
      obtain ⟨s, hs, rfl⟩ := List.mem_map.mp hx
      refine ⟨?_, (h2 s hs).2⟩
      intro hnil
      exact (h2 s hs).1 (String.ext hnil)
      )
    hd
  exact List.map_injective_iff.mpr (fun a b hab => String.ext hab) hmaps

theorem strJoin_natStr_inj (l1 l2 : List Nat)
    (h : strJoin (" ") (l1.map natStr) = strJoin (" ") (l2.map natStr)) :
    l1 = l2 := by
  have hmaps := strJoin_space_inj (l1.map natStr) (l2.map natStr)
    (fun x hx => by
      obtain ⟨n, _, rfl⟩ := List.mem_map.mp hx
      exact ⟨string_ne_empty_of_data (natStr_ne_empty n), space_not_mem_natStr n⟩)
    (fun x hx => by
      obtain ⟨n, _, rfl⟩ := List.mem_map.mp hx
      exact ⟨string_ne_empty_of_data (natStr_ne_empty n), space_not_mem_natStr n⟩)
    h
  exact List.map_injective_iff.mpr natStr_injective hmaps

theorem groupKey_eq_iff (r1 r2 : Route)
    (hc1 : ∀ c ∈ r1.communities, c ≠ "" ∧ ' ' ∉ c.data)
    (hc2 : ∀ c ∈ r2.communities, c ≠ "" ∧ ' ' ∉ c.data) :
    groupKey r1 = groupKey r2 ↔ routeTriple r1 = routeTriple r2 := by
  constructor
  · intro h
    unfold groupKey at h
    simp only [Prod.mk.injEq] at h
    unfold routeTriple
    simp only [Prod.mk.injEq]
    refine ⟨?_, ?_, h.2.2⟩
    · exact strJoin_natStr_inj _ _ (by
        have := h.1
        simpa [Route.aspath_as_str] using this)
    · exact strJoin_space_inj _ _ hc1 hc2 h.2.1
  · intro h
    unfold routeTriple at h
    simp only [Prod.mk.injEq] at h
    unfold groupKey Route.aspath_as_str
    rw [h.1, h.2.1, h.2.2]

theorem dedup_length_map_congr {α β γ : Type} [DecidableEq β] [DecidableEq γ]
    (f : α → β) (g : α → γ) :
    ∀ l : List α, (∀ a ∈ l, ∀ b ∈ l, (f a = f b ↔ g a = g b)) →
      ((l.map f).dedup).length = ((l.map g).dedup).length
  | [], _ => rfl
  | a :: l, h => by
    have ih := dedup_length_map_congr f g l
      (fun x hx y hy => h x (List.mem_cons_of_mem a hx) y (List.mem_cons_of_mem a hy))
    by_cases hmem : f a ∈ l.map f
    · have hmem2 : g a ∈ l.map g := by
        obtain ⟨b, hb, hfb⟩ := List.mem_map.mp hmem
        exact List.mem_map.mpr ⟨b, hb,
          (h b (List.mem_cons_of_mem a hb) a (List.mem_cons_self a l)).mp hfb⟩
      simp only [List.map_cons, List.dedup_cons_of_mem hmem,
        List.dedup_cons_of_mem hmem2, ih]
    · have hmem2 : g a ∉ l.map g := by
        intro hg
        obtain ⟨b, hb, hgb⟩ := List.mem_map.mp hg
        exact hmem (List.mem_map.mpr ⟨b, hb,
          (h b (List.mem_cons_of_mem a hb) a (List.mem_cons_self a l)).mpr hgb⟩)
      simp only [List.map_cons, List.dedup_cons_of_not_mem hmem,
        List.dedup_cons_of_not_mem hmem2, List.length_cons, ih]

theorem lookList_map_update (k : String × String × String) (n : IPv4Network) :
    ∀ acc : List ((String × String × String) × List IPv4Network),
      lookList k (acc.map (fun p => if p.1 = k then (p.1, p.2 ++ [n]) else p))
        = if acc.any (fun q => decide (q.1 = k)) then lookList k acc ++ [n]
          else lookList k acc := by
  intro acc
  induction acc with
  | nil => simp [lookList]
  | cons p rest ih =>
    by_cases hp : p.1 = k
    · have h1 : (p :: rest).any (fun q => decide (q.1 = k)) = true := by
        simp [List.any_cons, hp]
      rw [h1, if_pos rfl]
      simp only [List.map_cons, if_pos hp]
      simp [lookList, hp]
    · have h1 : (p :: rest).any (fun q => decide (q.1 = k))
          = rest.any (fun q => decide (q.1 = k)) := by
        simp [List.any_cons, hp]
      rw [h1]
      simp only [List.map_cons, if_neg hp, lookList]
      exact ih

theorem lookList_map_update_other (k2 k : String × String × String)
    (n : IPv4Network) (hne : k2 ≠ k) :
    ∀ acc : List ((String × String × String) × List IPv4Network),
      lookList k2 (acc.map (fun p => if p.1 = k then (p.1, p.2 ++ [n]) else p))
        = lookList k2 acc := by
  intro acc
  induction acc with
  | nil => rfl
  | cons p rest ih =>
    by_cases hp : p.1 = k
    · have hp2 : ¬(p.1 = k2) := fun h => hne (h ▸ hp.symm ▸ rfl)
      simp only [List.map_cons, lookList, if_pos hp]
      rw [if_neg (show ¬(p.1 = k2) from hp2), if_neg hp2]
      exact ih
    · simp only [List.map_cons, lookList, if_neg hp]
      by_cases hp2 : p.1 = k2
      · rw [if_pos hp2, if_pos hp2]
      · rw [if_neg hp2, if_neg hp2]
        exact ih

theorem lookList_append_new (k2 k : String × String × String)
    (n : IPv4Network) (hne : k2 ≠ k) :
    ∀ acc : List ((String × String × String) × List IPv4Network),
      lookList k2 (acc ++ [(k, [n])]) = lookList k2 acc := by
  intro acc
  induction acc with
  | nil =>
    have hkk : ¬(k = k2) := fun h => hne h.symm
    simp [lookList, hkk]
  | cons p rest ih =>
    simp only [List.cons_append, lookList]
    by_cases hp2 : p.1 = k2
    · rw [if_pos hp2, if_pos hp2]
    · rw [if_neg hp2, if_neg hp2]
      exact ih

theorem lookList_append_same (k : String × String × String) (n : IPv4Network) :
    ∀ acc : List ((String × String × String) × List IPv4Network),
      acc.any (fun q => decide (q.1 = k)) = false →
      lookList k (acc ++ [(k, [n])]) = lookList k acc ++ [n] := by
  intro acc
  induction acc with
  | nil => simp [lookList]
  | cons p rest ih =>
    intro hany
    simp only [List.any_cons, Bool.or_eq_false_iff] at hany
    have hp : ¬(p.1 = k) := by
      intro h
      simp [h] at hany
    simp only [List.cons_append, lookList, if_neg hp]
    exact ih hany.2

theorem lookList_insertRoute_same (k : String × String × String) (n : IPv4Network)
    (acc : List ((String × String × String) × List IPv4Network)) :
    lookList k (insertRoute acc k n) = lookList k acc ++ [n] := by
  unfold insertRoute
  split
  · next hany =>
    rw [lookList_map_update, if_pos hany]
  · next hany =>
    exact lookList_append_same k n acc (by
      cases hc : acc.any (fun q => decide (q.1 = k))
      · rfl
      · exact absurd hc hany)

theorem lookList_insertRoute_other (k2 k : String × String × String)
    (n : IPv4Network) (hne : k2 ≠ k)
    (acc : List ((String × String × String) × List IPv4Network)) :
    lookList k2 (insertRoute acc k n) = lookList k2 acc := by
  unfold insertRoute
  split
  · exact lookList_map_update_other k2 k n hne acc
  · exact lookList_append_new k2 k n hne acc

theorem map_fst_update (k : String × String × String) (n : IPv4Network)
    (acc : List ((String × String × String) × List IPv4Network)) :
    (acc.map (fun p => if p.1 = k then (p.1, p.2 ++ [n]) else p)).map Prod.fst
      = acc.map Prod.fst := by
  rw [List.map_map]
  congr 1
  funext p
  by_cases hp : p.1 = k <;> simp [hp]

theorem lookList_groupRoutes_aux :
    ∀ (routes : List Route)
      (acc : List ((String × String × String) × List IPv4Network))
      (k : String × String × String),
      lookList k (routes.foldl (fun a r => insertRoute a (groupKey r) r.network) acc)
        = lookList k acc ++ netsOf k routes
  | [], acc, k => by simp [netsOf]
  | r :: rest, acc, k => by
    simp only [List.foldl_cons]
    rw [lookList_groupRoutes_aux rest _ k]
    by_cases hk : groupKey r = k
    · rw [hk, lookList_insertRoute_same k r.network acc]
      simp [netsOf, List.filter_cons, hk]
    · rw [lookList_insertRoute_other k (groupKey r) r.network
        (fun h => hk h.symm) acc]
      simp [netsOf, List.filter_cons, hk]

theorem mem_keys_insertRoute (k2 k : String × String × String) (n : IPv4Network)
    (acc : List ((String × String × String) × List IPv4Network)) :
    k2 ∈ (insertRoute acc k n).map Prod.fst
      ↔ k2 ∈ acc.map Prod.fst ∨ k2 = k := by
  unfold insertRoute
  split
  · next hany =>
    rw [map_fst_update]
    constructor
    · exact Or.inl
    · rintro (h | rfl)
      · exact h
      · obtain ⟨p, hp, hpk⟩ := List.any_eq_true.mp hany
        exact List.mem_map.mpr ⟨p, hp, of_decide_eq_true hpk⟩
  · simp [List.map_append]

theorem mem_keys_groupRoutes_aux :
    ∀ (routes : List Route)
      (acc : List ((String × String × String) × List IPv4Network))
      (k : String × String × String),
      k ∈ (routes.foldl (fun a r => insertRoute a (groupKey r) r.network) acc).map
          Prod.fst
        ↔ k ∈ acc.map Prod.fst ∨ k ∈ routes.map groupKey
  | [], acc, k => by simp
  | r :: rest, acc, k => by
    simp only [List.foldl_cons, List.map_cons, List.mem_cons]
    rw [mem_keys_groupRoutes_aux rest _ k, mem_keys_insertRoute]
    tauto

theorem nodup_keys_insertRoute (k : String × String × String) (n : IPv4Network)
    (acc : List ((String × String × String) × List IPv4Network))
    (h : (acc.map Prod.fst).Nodup) :
    ((insertRoute acc k n).map Prod.fst).Nodup := by
  unfold insertRoute
  split
  · rwa [map_fst_update]
  · next hany =>
    rw [List.map_append]
    rw [List.nodup_append]
    refine ⟨h, List.nodup_singleton k, ?_⟩
    intro a ha hb
    simp at hb
    subst hb
    obtain ⟨p, hp, hpk⟩ := List.mem_map.mp ha
    exact hany (List.any_eq_true.mpr ⟨p, hp, decide_eq_true hpk⟩)

theorem nodup_keys_groupRoutes_aux :
    ∀ (routes : List Route)
      (acc : List ((String × String × String) × List IPv4Network)),
      (acc.map Prod.fst).Nodup →
      ((routes.foldl (fun a r => insertRoute a (groupKey r) r.network) acc).map
        Prod.fst).Nodup
  | [], _, h => h
  | r :: rest, acc, h => by
    simp only [List.foldl_cons]
    exact nodup_keys_groupRoutes_aux rest _
      (nodup_keys_insertRoute (groupKey r) r.network acc h)

theorem lookList_of_mem_nodup :
    ∀ (entries : List ((String × String × String) × List IPv4Network))
      (p : (String × String × String) × List IPv4Network),
      p ∈ entries → (entries.map Prod.fst).Nodup → lookList p.1 entries = p.2
  | [], p, hp, _ => absurd hp (List.not_mem_nil p)
  | q :: rest, p, hp, hnd => by
    simp only [List.map_cons, List.nodup_cons] at hnd
    rcases List.mem_cons.mp hp with rfl | hp2
    · simp [lookList]
    · have hne : ¬(q.1 = p.1) := by
        intro h
        exact hnd.1 (h ▸ List.mem_map.mpr ⟨p, hp2, rfl⟩)
      simp only [lookList, if_neg hne]
      exact lookList_of_mem_nodup rest p hp2 hnd.2

/-- C6 amended: for every route list whose community strings are all
non-empty and space-free and whose networks are pairwise distinct, the
IOS compiler's `routeDict` has exactly as many groups as there are
distinct `(aspath, communities, origin)` triples, every route's
network appears in exactly one group's network list (the source of its
prefix-list), and two routes share a group key iff their triples are
equal. Without the community restriction the space-joined grouping key
can merge distinct triples (see the counterexample). -/
theorem c6_amended_grouping (routes : List Route)
    (hc : ∀ r ∈ routes, ∀ c ∈ r.communities, c ≠ "" ∧ ' ' ∉ c.data)
    (hn : (routes.map Route.network).Nodup) :
    (groupRoutes routes).length = distinctPolicyTriples routes
      ∧ (∀ r ∈ routes, ∃! p : (String × String × String) × List IPv4Network,
            p ∈ groupRoutes routes ∧ r.network ∈ p.2)
      ∧ (∀ r1 ∈ routes, ∀ r2 ∈ routes,
            (groupKey r1 = groupKey r2 ↔ routeTriple r1 = routeTriple r2)) := by
  have hkeys_mem : ∀ k, k ∈ (groupRoutes routes).map Prod.fst
      ↔ k ∈ routes.map groupKey := by
    intro k
    have h := mem_keys_groupRoutes_aux routes [] k
    simpa [groupRoutes] using h
  have hkeys_nodup : ((groupRoutes routes).map Prod.fst).Nodup := by
    have h := nodup_keys_groupRoutes_aux routes [] (by simp)
    simpa [groupRoutes] using h
  have hcontent : ∀ p ∈ groupRoutes routes, p.2 = netsOf p.1 routes := by
    intro p hp
    have h1 := lookList_of_mem_nodup (groupRoutes routes) p hp hkeys_nodup
    have h2 := lookList_groupRoutes_aux routes [] p.1
    rw [show lookList p.1 ([] :
        List ((String × String × String) × List IPv4Network)) = [] from rfl,
      List.nil_append] at h2
    rw [← h1]
    exact h2
  refine ⟨?_, ?_, fun r1 h1 r2 h2 => groupKey_eq_iff r1 r2 (hc r1 h1) (hc r2 h2)⟩
  · have hl1 : (groupRoutes routes).length
        = ((groupRoutes routes).map Prod.fst).length := (List.length_map _ _).symm
    have hl2 : ((groupRoutes routes).map Prod.fst).length
        = ((routes.map groupKey).dedup).length := by
      apply List.Perm.length_eq
      apply List.perm_of_nodup_nodup_toFinset_eq hkeys_nodup
        (List.nodup_dedup _)
      ext x
      simp only [List.mem_toFinset, List.mem_dedup]
      exact hkeys_mem x
    have hl3 : ((routes.map groupKey).dedup).length
        = ((routes.map routeTriple).dedup).length :=
      dedup_length_map_congr groupKey routeTriple routes
        (fun a ha b hb => groupKey_eq_iff a b (hc a ha) (hc b hb))
    exact hl1.trans (hl2.trans hl3)
  · intro r hr
    have hkmem : groupKey r ∈ (groupRoutes routes).map Prod.fst :=
      (hkeys_mem _).mpr (List.mem_map.mpr ⟨r, hr, rfl⟩)
    obtain ⟨p, hp, hpk⟩ := List.mem_map.mp hkmem
    have hpnets : p.2 = netsOf p.1 routes := hcontent p hp
    refine ⟨p, ⟨hp, ?_⟩, ?_⟩
    · rw [hpnets, hpk]
      unfold netsOf
      exact List.mem_map.mpr ⟨r, List.mem_filter.mpr ⟨hr, by simp⟩, rfl⟩
    · rintro q ⟨hq, hqnet⟩
      have hqnets : q.2 = netsOf q.1 routes := hcontent q hq
      rw [hqnets] at hqnet
      obtain ⟨r2, hr2f, hr2n⟩ := List.mem_map.mp hqnet
      have hr2 : r2 ∈ routes := (List.mem_filter.mp hr2f).1
      have hkey2 : groupKey r2 = q.1 :=
        of_decide_eq_true (List.mem_filter.mp hr2f).2
      have hr2r : r2 = r := List.inj_on_of_nodup_map hn hr2 hr hr2n
      have hqp : q.1 = p.1 := by rw [← hkey2, hr2r, ← hpk]
      exact List.inj_on_of_nodup_map hkeys_nodup hq hp hqp

/-- C6 counterexample: grouping is by space-joined strings, not by the
triples themselves — two routes with distinct community lists `["a b"]`
and `["a", "b"]` (two distinct policy triples) land in a single group,
and the emitted IOS text contains a single prefix-list and a single
route-map clause. -/
theorem c6_counterexample_join_collision :
    distinctPolicyTriples [routeCommAB, routeCollide] = 2
      ∧ (groupRoutes [routeCommAB, routeCollide]).length = 1
      ∧ config_ios [routeCommAB, routeCollide] (-1) "" =
          "ip route 10.0.0.0 255.255.255.0 null0\n"
            ++ "ip route 10.0.1.0 255.255.255.0 null0\n"
            ++ "ip prefix-list ROUTEGEN-PL1 seq 1 permit 10.0.0.0/24\n"
            ++ "ip prefix-list ROUTEGEN-PL1 seq 2 permit 10.0.1.0/24\n"
            ++ "route-map ROUTEGEN-RM permit 1\n"
            ++ "  match ip address prefix-list ROUTEGEN-PL1\n"
            ++ "  set community add a b" :=
  ⟨by decide, rfl, rfl⟩

/-- C6 witness: the amended grouping statement applied to Scenario 1's
two routes. -/
theorem c6_amended_grouping_witness :
    (∀ r ∈ [routeA, routeB], ∀ c ∈ r.communities, c ≠ "" ∧ ' ' ∉ c.data)
      ∧ ([routeA, routeB].map Route.network).Nodup
      ∧ ((groupRoutes [routeA, routeB]).length
            = distinctPolicyTriples [routeA, routeB]
          ∧ (∀ r ∈ [routeA, routeB],
              ∃! p : (String × String × String) × List IPv4Network,
                p ∈ groupRoutes [routeA, routeB] ∧ r.network ∈ p.2)
          ∧ (∀ r1 ∈ [routeA, routeB], ∀ r2 ∈ [routeA, routeB],
              (groupKey r1 = groupKey r2 ↔ routeTriple r1 = routeTriple r2))) :=
  ⟨by decide, by decide, c6_amended_grouping [routeA, routeB] (by decide) (by decide)⟩
